import Mathlib

/-!
Shallow embedding of the emberplus library core (S101 framing codec,
ASN.1/Glow request encoder and decoder, element collection) together with
theorems settling the specification claims about it.

Bytes are modelled as `Nat` values below 256, byte strings as `List Nat`,
Go `int` values as `Int`, and fallible operations as `Except`.
-/

namespace EmberPlus

namespace s101

/-- Modelled from the spec: the S101 constants file of the repository is not
among the provided sources (only `codec.go`, which uses the names).  Values
follow spec section 3: begin-of-frame marker 0xFE. -/
def bof : Nat := 0xFE

/-- Modelled from the spec: end-of-frame marker 0xFF. -/
def eof : Nat := 0xFF

/-- Modelled from the spec: escape marker 0xFD (named `ce` in `codec.go`). -/
def ce : Nat := 0xFD

/-- Modelled from the spec: escape XOR byte 0x20 (named `xorce` in `codec.go`). -/
def xorce : Nat := 0x20

/-- Modelled from the spec: first byte value that must be escaped, 0xF8
(named `bofne` in `codec.go`). -/
def bofne : Nat := 0xF8

/-- Modelled from the spec: packet type single = 0xC0, spec section 3. -/
def SingleMessage : Nat := 0xC0

/-- Modelled from the spec: packet type first-multi = 0x80, spec section 3. -/
def FirstMultiPacket : Nat := 0x80

/-- Modelled from the spec: packet type body-multi = 0x60, spec section 3. -/
def BodyMultiPacket : Nat := 0x60

/-- Modelled from the spec: packet type last-multi = 0x40, spec section 3. -/
def LastMultiPacket : Nat := 0x40

/-- Modelled from the spec: S101 header constant slot = 0, spec section 6. -/
def slot : Nat := 0x00

/-- Modelled from the spec: S101 header constant message-type = 0x0E. -/
def messageType : Nat := 0x0E

/-- Modelled from the spec: S101 header constant command = 0x00. -/
def commandType : Nat := 0x00

/-- Modelled from the spec: S101 header constant version = 0x01. -/
def version : Nat := 0x01

/-- Modelled from the spec: S101 header constant DTD = 0x01. -/
def dtdType : Nat := 0x01

/-- Modelled from the spec: S101 header constant app-bytes = 0x02. -/
def appBytes : Nat := 0x02

/-- Modelled from the spec: the spec names a minor version header byte but
gives no numeric value; the Ember+ reference Glow DTD 2.31 value 0x1F is
used.  No claim depends on the concrete value, only on it being below
0xF8. -/
def minorVersion : Nat := 0x1F

/-- Modelled from the spec: major version header byte, Glow DTD 2.31 value
0x02.  No claim depends on the concrete value. -/
def majorVersion : Nat := 0x02

/-- Modelled from the spec: frame prefix length before the glow payload,
one begin-of-frame byte plus the nine-byte header (spec section 3). -/
def s101LenTilGlow : Nat := 10

/-- Modelled from the spec: frame suffix length after the glow payload,
two CRC bytes plus the end-of-frame byte (spec sections 3 and 4.1). -/
def s101LenAfterGlow : Nat := 3

/-- Modelled from the spec: CRC seed 0xFFFF, named `eof16` in `codec.go`. -/
def eof16 : Nat := 0xFFFF

/-- Modelled from the spec: shift distance for the second CRC byte. -/
def checkSumSecondDeviation : Nat := 8

/-- Modelled from the spec: one entry of the S101 CRC table, which is not in
the provided sources.  Spec section 3: CRC-16 CCITT, polynomial 0x1021, bit
order per the reference implementation, which processes least significant
bit first, so the table entry reduces `i` eight times by the reflected
polynomial 0x8408. -/
def crcTableEntry (i : Nat) : Nat :=
  let step := fun v => if v &&& 1 = 1 then (v >>> 1) ^^^ 0x8408 else v >>> 1
  step (step (step (step (step (step (step (step i)))))))

/-- Lookup in the modelled CRC table (`crcTable` in `codec.go`). -/
def crcTable (i : Nat) : Nat := crcTableEntry (i % 256)

/-- Embedding of `computeCRCByte` in `codec.go`: one CRC step, where the Go
uint16 arithmetic is made explicit by the final mask. -/
def computeCRCByte (crc : Nat) (b : Nat) : Nat :=
  ((crc >>> 8) ^^^ crcTable ((crc ^^^ b) &&& 0xFF)) &&& 0xFFFF

/-- Embedding of the reader loop of `getCRC` in `codec.go`: fold the CRC over
the data, treating a `ce` byte as an escape that XORs the following byte
with `xorce` before it enters the CRC. -/
def getCRCLoop (crc : Nat) : List Nat → Nat
  | [] => crc
  | b :: rest =>
    if b = ce then
      match rest with
      | [] => crc
      | next :: rest2 => getCRCLoop (computeCRCByte crc (xorce ^^^ next)) rest2
    else getCRCLoop (computeCRCByte crc b) rest

/-- Final CRC value of `getCRC` in `codec.go` before byte splitting: the Go
complement of a uint16 is the XOR with 0xFFFF. -/
def getCRCValue (data : List Nat) : Nat :=
  ((getCRCLoop eof16 data) ^^^ 0xFFFF) &&& eof16

/-- Embedding of `parseCRC` in `codec.go`: escape CRC bytes at or above
`bofne`. -/
def parseCRC : List Nat → List Nat
  | [] => []
  | v :: rest =>
    if v < bofne then v :: parseCRC rest
    else ce :: (v ^^^ xorce) :: parseCRC rest

/-- Embedding of `getCRC` in `codec.go`: compute the CRC value and emit the
low byte then the high byte, each escaped by `parseCRC`. -/
def getCRC (data : List Nat) : List Nat :=
  let crc := getCRCValue data
  parseCRC [crc &&& eof, crc >>> checkSumSecondDeviation]

/-- Embedding of `escapeBytesAboveBOFNE` in `codec.go`. -/
def escapeBytesAboveBOFNE : List Nat → List Nat
  | [] => []
  | b :: rest =>
    if bofne ≤ b then ce :: (xorce ^^^ b) :: escapeBytesAboveBOFNE rest
    else b :: escapeBytesAboveBOFNE rest

/-- Nine-byte S101 header (`s101Info` in `createS101`). -/
def s101Info (pType : Nat) : List Nat :=
  [slot, messageType, commandType, version, pType, dtdType, appBytes,
   minorVersion, majorVersion]

/-- Embedding of `createS101` in `codec.go`: frame a payload with the header,
escaping, CRC and the frame markers.  The CRC is computed over the header
concatenated with the unescaped payload. -/
def createS101 (payload : List Nat) (pType : Nat) : List Nat :=
  [bof] ++ s101Info pType ++ escapeBytesAboveBOFNE payload
    ++ getCRC (s101Info pType ++ payload) ++ [eof]

/-- Embedding of `Encode` in `codec.go`: frame the message, appending an
empty last-multi frame when the packet type is first-multi. -/
def Encode (message : List Nat) (packetType : Nat) : List Nat :=
  let out := createS101 message packetType
  if packetType = FirstMultiPacket then out ++ createS101 [] LastMultiPacket
  else out

/-- Embedding of the scanning loop of `getS101s` in `codec.go`.  The
arguments mirror the Go locals: remaining input, `startFound`, `endFound`,
accumulated frames `out` and current frame bytes `single`. -/
def getS101sLoop : List Nat → Bool → Bool → List (List Nat) → List Nat →
    (List (List Nat) × List Nat)
  | [], _, endFound, out, single =>
    if endFound then (out, []) else ([], single)
  | b :: rest, startFound, endFound, out, single =>
    if b = bof then getS101sLoop rest true endFound out [b]
    else if startFound then
      if b = eof then getS101sLoop rest false true (out ++ [single ++ [b]]) []
      else getS101sLoop rest true endFound out (single ++ [b])
    else getS101sLoop rest startFound endFound out single

/-- Embedding of `getS101s` in `codec.go`: split a byte stream into complete
frames and unterminated trailing bytes. -/
def getS101s (input : List Nat) : List (List Nat) × List Nat :=
  getS101sLoop input false false [] []

/-- Embedding of `GetS101s` in `codec.go`: reject empty input, otherwise
split. -/
def GetS101s (message : List Nat) :
    Except String (List (List Nat) × List Nat) :=
  if message = [] then .error "no data" else .ok (getS101s message)

/-- Embedding of the de-escape loop inside `Decode` in `codec.go`: the flag
argument mirrors the Go local `ceFound`. -/
def deEscape (ceFound : Bool) : List Nat → List Nat
  | [] => []
  | b :: rest =>
    if b = ce then deEscape true rest
    else if ceFound then (xorce ^^^ b) :: deEscape false rest
    else b :: deEscape false rest

/-- Embedding of the frame loop of `Decode` in `codec.go`, accumulating the
glow payload and remembering the packet type byte of the last frame. -/
def DecodeLoop : List (List Nat) → List Nat → Nat →
    Except String (List Nat × Nat)
  | [], out, lastPacketType => .ok (out, lastPacketType)
  | frame :: rest, out, lastPacketType =>
    if frame.length < s101LenTilGlow + s101LenAfterGlow then
      .error "malformed s101 packet"
    else
      let last2 := if rest = [] then frame.getD 5 0 else lastPacketType
      let glow := deEscape false (frame.take (frame.length - s101LenAfterGlow))
      DecodeLoop rest (out ++ glow.drop s101LenTilGlow) last2

/-- Embedding of `Decode` in `codec.go`: strip the S101 framing from every
frame and concatenate the glow payloads. -/
def Decode (s101s : List (List Nat)) : Except String (List Nat × Nat) :=
  DecodeLoop s101s [] 0

end s101

namespace asn1

/-- Tag for the glow root element collection (`RootElementCollectionTag`). -/
def RootElementCollectionTag : Nat := 0

/-- Tag for the glow root element (`RootElementTag`). -/
def RootElementTag : Nat := 11

/-- Tag for an element collection (`ElementCollectionTag`). -/
def ElementCollectionTag : Nat := 4

/-- Universal object tag 0x0D (`UniversalObjectTag`). -/
def UniversalObjectTag : Nat := 0x0D

/-- UTF8 string tag 0x0C (`UTF8StringTag`). -/
def UTF8StringTag : Nat := 0x0C

/-- Context byte 0x80 (`contextByte`). -/
def contextByte : Nat := 0x80

/-- Context OR byte 0xA0 (`contextOR`). -/
def contextOR : Nat := 0xA0

/-- Application OR byte 0x60 (`applicationOR`). -/
def applicationOR : Nat := 0x60

/-- Length mask byte 0x7F (`lenByte`). -/
def lenByte : Nat := 0x7F

/-- Maximum number of length bytes (`maxLengthBytes`). -/
def maxLengthBytes : Nat := 4

/-- Ember integer tag 0x02 (`emberIntTag`). -/
def emberIntTag : Nat := 0x02

/-- Application tag for a glow command (`commandApplicationTag`). -/
def commandApplicationTag : Nat := 2

/-- Lowercase element collection tag (`elementCollectionTag`). -/
def elementCollectionTag : Nat := 4

/-- Glow function tag (`functionTag`). -/
def functionTag : Nat := 20

/-- Qualified parameter tag (`QualifiedParameterTag`). -/
def QualifiedParameterTag : Nat := 9

/-- Qualified node tag (`QualifiedNodeTag`). -/
def QualifiedNodeTag : Nat := 10

/-- GetDirectory command integer (`EmberGetDirCommand`). -/
def EmberGetDirCommand : Int := 32

/-- Unsubscribe command integer (`EmberGetUnsubscribeCommand`). -/
def EmberGetUnsubscribeCommand : Int := 31

/-- Field mask requesting all fields (`dirFieldMaskAll`). -/
def dirFieldMaskAll : Int := -1

/-- Element type string constants from `asn1` package. -/
def ParameterType : String := "parameter"

/-- Qualified parameter element type string. -/
def QualifiedParameterType : String := "qualified_parameter"

/-- Qualified node element type string. -/
def QualifiedNodeType : String := "qualified_node"

/-- Node element type string. -/
def NodeType : String := "node"

/-- Function element type string. -/
def FunctionType : String := "function"

/-- Embedding of `ApplicationByte`: OR the tag with 0x60. -/
def ApplicationByte (num : Nat) : Nat := applicationOR ||| num

/-- Embedding of `ContextByte`: OR the tag with 0xA0. -/
def ContextByte (num : Nat) : Nat := contextOR ||| num

/-- Embedding of `UniversalByte`: the tag unchanged. -/
def UniversalByte (num : Nat) : Nat := num

/-- Encoder state: the bytes accumulated in the Go `bytes.Buffer`. -/
def writeByte (s : List Nat) (b : Nat) : List Nat := s ++ [b]

/-- Write a byte list into the buffer (`Buffer.Write`). -/
def writeBytes (s : List Nat) (bs : List Nat) : List Nat := s ++ bs

/-- Embedding of `GetData`: the buffer contents. -/
def GetData (s : List Nat) : List Nat := s

/-- Embedding of `openSequence`: the tag byte followed by the indefinite
length marker 0x80. -/
def openSequence (s : List Nat) (appl : Nat) : List Nat :=
  writeByte (writeByte s appl) contextByte

/-- Embedding of `closeSequence`: two zero bytes. -/
def closeSequence (s : List Nat) : List Nat := writeBytes s [0, 0]

/-- Number of content bytes Go `encoding/asn1` uses for an integer
(`int64Length` in the Go standard library): grow while the value does not
fit a signed byte, arithmetically shifting right by eight.  The structural
fuel of 10 covers the at most nine iterations possible for a 64-bit
integer. -/
def int64LengthGo : Nat → Int → Nat
  | 0, _ => 1
  | fuel + 1, i =>
    if -128 ≤ i ∧ i ≤ 127 then 1 else 1 + int64LengthGo fuel (Int.fdiv i 256)

/-- Number of content bytes for a marshalled integer. -/
def int64Length (i : Int) : Nat := int64LengthGo 10 i

/-- Big-endian twos-complement content bytes the Go standard library
`encoding/asn1` marshaller emits for an integer: byte `j` of `n` is the
value arithmetically shifted right by `8*(n-1-j)`, truncated to eight
bits. -/
def marshalIntContents (i : Int) : List Nat :=
  let n := int64Length i
  (List.range n).map fun j => ((Int.fdiv i (2 ^ (8 * (n - 1 - j)))).emod 256).toNat

/-- DER encoding of an integer produced by Go `asn1.Marshal`: tag 0x02, one
short-form length byte, then the contents. -/
def goAsn1MarshalInt (i : Int) : List Nat :=
  emberIntTag :: int64Length i :: marshalIntContents i

/-- Embedding of `writeInt` in `asn1Encoder.go`: context byte, length of the
marshalled integer truncated to a byte, then the marshalled bytes.  The Go
function can only fail in the wrapped marshaller, which never fails for an
integer, so the embedding is total. -/
def writeInt (s : List Nat) (i : Int) (cont : Nat) : List Nat :=
  let s1 := writeByte s (ContextByte cont)
  let b := goAsn1MarshalInt i
  writeBytes (writeByte s1 (b.length % 256)) b

/-- Embedding of `WriteCommand` in `asn1Encoder.go`: a context 0 sequence
holding an application 2 sequence with the command integer and, for the
GetDirectory command, the all-ones field mask.  The two deferred
`closeSequence` calls run on return. -/
def WriteCommand (s : List Nat) (cmd : Int) : List Nat :=
  let s1 := openSequence s (ContextByte 0)
  let s2 := openSequence s1 (ApplicationByte commandApplicationTag)
  let s3 := writeInt s2 cmd 0
  let s4 := if cmd = EmberGetDirCommand then writeInt s3 dirFieldMaskAll 1 else s3
  closeSequence (closeSequence s4)

/-- Embedding of `WriteUniversal` in `asn1Encoder.go`: the universal object
tag, the path length truncated to a byte, then every component truncated to
a byte. -/
def WriteUniversal (s : List Nat) (path : List Int) : List Nat :=
  let s1 := writeByte (writeByte s UniversalObjectTag) (path.length % 256)
  path.foldl (fun acc p => writeByte acc (p.emod 256).toNat) s1

/-- Embedding of `WriteRootTreeRequest` in `asn1Encoder.go`: application 0
and application 11 sequences around a GetDirectory command; the deferred
`closeSequence` calls run on return. -/
def WriteRootTreeRequest (s : List Nat) : List Nat :=
  let s1 := openSequence s (ApplicationByte RootElementCollectionTag)
  let s2 := openSequence s1 (ApplicationByte RootElementTag)
  let s3 := WriteCommand s2 EmberGetDirCommand
  closeSequence (closeSequence s3)

/-- Inner application tag selected by the `switch` in `WriteRequest`, or
`none` for an unknown element type. -/
def requestTag (tag : String) : Option Nat :=
  if tag = ParameterType ∨ tag = QualifiedParameterType then
    some QualifiedParameterTag
  else if tag = NodeType ∨ tag = QualifiedNodeType then some QualifiedNodeTag
  else if tag = FunctionType then some functionTag
  else none

/-- Embedding of `WriteRequest` in `asn1Encoder.go`.  On the unknown tag
error path the three already deferred `closeSequence` calls still run
before the error is returned, exactly as Go defers do. -/
def WriteRequest (s : List Nat) (path : List Int) (tag : String) (cmd : Int) :
    List Nat × Except String Unit :=
  let s1 := openSequence s (ApplicationByte RootElementCollectionTag)
  let s2 := openSequence s1 (ApplicationByte RootElementTag)
  let s3 := openSequence s2 (ContextByte 0)
  match requestTag tag with
  | none =>
    (closeSequence (closeSequence (closeSequence s3)),
     .error "unknown application tag")
  | some t =>
    let s4 := openSequence s3 (ApplicationByte t)
    let s5 := openSequence s4 (ContextByte 0)
    let s6 := WriteUniversal s5 path
    let s7 := openSequence s6 (ContextByte 2)
    let s8 := openSequence s7 (ApplicationByte elementCollectionTag)
    let s9 := WriteCommand s8 cmd
    (closeSequence (closeSequence (closeSequence (closeSequence
      (closeSequence (closeSequence (closeSequence s9)))))), .ok ())

/-- Decoder errors: `ErrNoLenByte` is distinguished because `Read` handles
it specially; every other error is carried as a message. -/
inductive DecErr where
  | noLenByte : DecErr
  | fail : String → DecErr
deriving DecidableEq

/-- Read the extra length bytes of a long-form length (the loop inside
`readLength`), returning the value, the offset and the rest. -/
def readLengthBytes : Nat → Nat → Nat → List Nat →
    Except DecErr (Nat × Nat × List Nat)
  | 0, out, offset, rest => .ok (out, offset, rest)
  | n + 1, out, offset, rest =>
    match rest with
    | [] => .error (.fail "incorrect additional length bytes")
    | val :: rest2 => readLengthBytes n (out * 256 + val) (offset + 1) rest2

/-- Embedding of `readLength` in `asn1Decoder.go`: short form if the high
bit is clear, otherwise up to four big-endian length bytes, with the zero
count signalling an indefinite length. -/
def readLength : List Nat → Except DecErr (Nat × Nat × List Nat)
  | [] => .error (.fail "incorrect length byte")
  | lenB :: rest =>
    if lenB &&& contextByte ≠ contextByte then .ok (lenB, 1, rest)
    else
      let lenB2 := lenB &&& lenByte
      if lenB2 = 0 then .error .noLenByte
      else if lenB2 > maxLengthBytes then .error (.fail "length higher than 4")
      else readLengthBytes lenB2 0 1 rest

/-- Reduce a 64-bit twos-complement wraparound: Go `int` arithmetic is
64-bit. -/
def wrap64 (x : Int) : Int := (x + 2 ^ 63) % 2 ^ 64 - 2 ^ 63

/-- Content loop of `DecodeInteger`: shift the accumulator left by eight and
OR in the next byte, with Go 64-bit wraparound made explicit. -/
def decodeIntegerLoop : Nat → Int → List Nat → Except DecErr (Int × List Nat)
  | 0, out, rest => .ok (out, rest)
  | n + 1, out, rest =>
    match rest with
    | [] => .error (.fail "failed to read extra len bytes")
    | b :: rest2 => decodeIntegerLoop n (wrap64 (out * 256 + b)) rest2

/-- Embedding of `DecodeInteger` in `asn1Decoder.go`: check the integer tag,
read the length, then fold the content bytes big-endian into the
accumulator. -/
def DecodeInteger (data : List Nat) : Except DecErr (Int × List Nat) :=
  match data with
  | [] => .error (.fail "failed to read tag byte")
  | t :: rest =>
    if t ≠ emberIntTag then .error (.fail "incorrect integer byte")
    else
      match readLength rest with
      | .error e => .error e
      | .ok (lenB, _, rest2) => decodeIntegerLoop lenB 0 rest2

end asn1

namespace ember

/-- Dynamic glow value, standing in for the Go `any` values stored in an
element.  Only the variants the embedded code paths assign are needed. -/
inductive GlowValue where
  | int : Int → GlowValue
  | str : String → GlowValue
  | bool : Bool → GlowValue
deriving DecidableEq

/-- Glow parameter value type codes from the `ember` package. -/
def valueTypeInt : Int := 1

/-- Real value type code. -/
def valueTypeReal : Int := 2

/-- String value type code. -/
def valueTypeString : Int := 3

/-- Bool value type code. -/
def valueTypeBool : Int := 4

/-- Enum value type code. -/
def valueTypeEnum : Int := 6

/-- Scalar fields of the `Element` struct of the `ember` package.  Unset Go
interface fields are `none`; other fields carry their Go zero values when
unset.  The recursive `Children` field lives in `Element` below because a
Lean structure cannot refer to itself. -/
structure ElementFields where
  path : String := ""
  elementType : String := ""
  identifier : String := ""
  description : String := ""
  isOnline : Bool := false
  isRoot : Bool := false
  maximum : Option GlowValue := none
  minimum : Option GlowValue := none
  value : Option GlowValue := none
  access : Int := 0
  format : String := ""
  enumeration : String := ""
  factor : Int := 0
  default : Option GlowValue := none
  valueType : Int := 0
deriving DecidableEq

/-- Embedding of the `Element` struct of the `ember` package: its scalar
fields plus the recursive list of children. -/
inductive Element where
  | mk : ElementFields → List Element → Element

/-- Scalar fields of an element. -/
def Element.fields : Element → ElementFields
  | .mk f _ => f

/-- Children of an element (`Children` field). -/
def Element.children : Element → List Element
  | .mk _ _children => _children

/-- Path of an element (`Path` field). -/
def Element.path (el : Element) : String := el.fields.path

/-- Identifier of an element (`Identifier` field). -/
def Element.identifier (el : Element) : String := el.fields.identifier

/-- Value of an element (`Value` field). -/
def Element.value (el : Element) : Option GlowValue := el.fields.value

/-- Value type of an element (`ValueType` field). -/
def Element.valueType (el : Element) : Int := el.fields.valueType

/-- Embedding of `ElementKey` of the `ember` package. -/
structure ElementKey where
  id : String
  path : String
deriving DecidableEq

/-- Embedding of `setDefaultElementValue` in the `ember` package: when the
value is still unset, value types 1 and 2 default to integer zero, 3 to the
empty string and 4 to false; every other value type, including 6 for enum,
leaves the element unchanged. -/
def setDefaultElementValue : Element → Element
  | .mk f c =>
    match f.value with
    | some _ => .mk f c
    | none =>
      if f.valueType = valueTypeInt ∨ f.valueType = valueTypeReal then
        .mk { f with value := some (.int 0) } c
      else if f.valueType = valueTypeString then
        .mk { f with value := some (.str "") } c
      else if f.valueType = valueTypeBool then
        .mk { f with value := some (.bool false) } c
      else .mk f c

/-- Scan of one element entry inside `GetElementByPath`: search the
immediate children for a joined path `parent.child` equal to the query. -/
def childByPath (keyPath : String) (currentPath : String) :
    List Element → Option Element
  | [] => none
  | ch :: rest =>
    if keyPath ++ "." ++ ch.path = currentPath then some ch
    else childByPath keyPath currentPath rest

/-- Embedding of `GetElementByPath` in the `ember` package.  The Go function
iterates a map in unspecified order; the embedding makes the iteration
order explicit by representing the collection as an association list. -/
def GetElementByPath : List (ElementKey × Element) → String →
    Except String Element
  | [], _ => .error "element not found"
  | (key, el) :: rest, currentPath =>
    if key.path = currentPath then .ok el
    else
      match childByPath key.path currentPath el.children with
      | some ch => .ok ch
      | none => GetElementByPath rest currentPath

end ember

deriving instance DecidableEq for Except

/-- Element used by the C8 counterexample: a child with path 2. -/
def childC : ember.Element := .mk { path := "2", identifier := "C" } []

/-- Element used by the C8 counterexample: a top-level element with path 1
holding the child. -/
def elemB : ember.Element := .mk { path := "1", identifier := "B" } [childC]

/-- Element used by the C8 counterexample: a top-level element whose own key
path is exactly the query 1.2. -/
def elemA : ember.Element := .mk { path := "1.2", identifier := "A" } []

/-- Collection in which both a top-level key path and a joined parent.child
path equal the query 1.2, with the child-bearing entry iterated first. -/
def collAmbiguous : List (ember.ElementKey × ember.Element) :=
  [(⟨"B", "1"⟩, elemB), (⟨"A", "1.2"⟩, elemA)]

/-- Element used by the C8 witness: a grandchild at depth two below the
root. -/
def grandchildD : ember.Element := .mk { path := "3", identifier := "D" } []

/-- Element used by the C8 witness: a child holding the grandchild. -/
def childC2 : ember.Element := .mk { path := "2", identifier := "C2" } [grandchildD]

/-- Collection used by the C8 witness: the query 1.2.3 joins only at depth
two, so lookup must fail. -/
def collDeep : List (ember.ElementKey × ember.Element) :=
  [(⟨"B", "1"⟩, .mk { path := "1", identifier := "B" } [childC2])]

section EncoderLemmas

open asn1

/-- Folding `writeByte` over a path appends the truncated components. -/
theorem foldl_writeByte_emod (path : List Int) (s : List Nat) :
    path.foldl (fun acc p => writeByte acc (p.emod 256).toNat) s =
      s ++ path.map (fun p => (p.emod 256).toNat) := by
  induction path generalizing s with
  | nil => simp
  | cons p rest ih =>
    simp only [List.foldl_cons, List.map_cons]
    rw [ih]
    simp [writeByte, List.append_assoc]

/-- Closed form of `WriteUniversal`. -/
theorem WriteUniversal_eq (s : List Nat) (path : List Int) :
    WriteUniversal s path =
      s ++ UniversalObjectTag :: (path.length % 256)
        :: path.map (fun p => (p.emod 256).toNat) := by
  unfold WriteUniversal
  rw [foldl_writeByte_emod]
  simp [writeByte, List.append_assoc]

/-- Closed form of `writeInt`. -/
theorem writeInt_eq (s : List Nat) (i : Int) (cont : Nat) :
    writeInt s i cont =
      s ++ ContextByte cont :: ((goAsn1MarshalInt i).length % 256)
        :: goAsn1MarshalInt i := by
  simp [writeInt, writeByte, writeBytes, List.append_assoc]

/-- The `WriteCommand` operation only appends to the buffer. -/
theorem WriteCommand_append (s : List Nat) (cmd : Int) :
    ∃ t, WriteCommand s cmd = s ++ t := by
  unfold WriteCommand
  by_cases hc : cmd = EmberGetDirCommand <;>
    simp [hc, openSequence, closeSequence, writeInt_eq, writeByte, writeBytes,
      List.append_assoc]

/-- The `WriteRootTreeRequest` operation only appends to the buffer. -/
theorem WriteRootTreeRequest_append (s : List Nat) :
    ∃ t, WriteRootTreeRequest s = s ++ t := by
  unfold WriteRootTreeRequest
  dsimp only
  obtain ⟨t, ht⟩ := WriteCommand_append
    (openSequence (openSequence s (ApplicationByte RootElementCollectionTag))
      (ApplicationByte RootElementTag)) EmberGetDirCommand
  rw [ht]
  simp [openSequence, closeSequence, writeByte, writeBytes, List.append_assoc]

/-- The `WriteRequest` operation only appends to the buffer, also on its
error path. -/
theorem WriteRequest_append (s : List Nat) (path : List Int) (tag : String)
    (cmd : Int) : ∃ t, (WriteRequest s path tag cmd).1 = s ++ t := by
  unfold WriteRequest
  cases h : requestTag tag with
  | none =>
    simp [openSequence, closeSequence, writeByte, writeBytes, List.append_assoc]
  | some t0 =>
    dsimp only
    obtain ⟨t, ht⟩ := WriteCommand_append
      (openSequence
        (openSequence
          (WriteUniversal
            (openSequence
              (openSequence
                (openSequence
                  (openSequence
                    (openSequence s (ApplicationByte RootElementCollectionTag))
                    (ApplicationByte RootElementTag))
                  (ContextByte 0))
                (ApplicationByte t0))
              (ContextByte 0)) path)
          (ContextByte 2))
        (ApplicationByte elementCollectionTag)) cmd
    rw [ht, WriteUniversal_eq]
    simp [openSequence, closeSequence, writeByte, writeBytes, List.append_assoc]

end EncoderLemmas

/-- Claim C3, counterexample: on an empty encoder `WriteRootTreeRequest`
emits the eighteen-byte request prefix followed by eight 0x00 terminator
bytes, not six as the claim states. -/
theorem claim3_counterexample :
    asn1.WriteRootTreeRequest [] =
      [0x60, 0x80, 0x6B, 0x80, 0xA0, 0x80, 0x62, 0x80, 0xA0, 0x03, 0x02,
       0x01, 0x20, 0xA1, 0x03, 0x02, 0x01, 0xFF] ++ List.replicate 8 0 ∧
    asn1.WriteRootTreeRequest [] ≠
      [0x60, 0x80, 0x6B, 0x80, 0xA0, 0x80, 0x62, 0x80, 0xA0, 0x03, 0x02,
       0x01, 0x20, 0xA1, 0x03, 0x02, 0x01, 0xFF] ++ List.replicate 6 0 := by
  decide

/-- Claim C3, amended: every call to `WriteRootTreeRequest` on an empty
encoder produces a payload whose first bytes are 0x60 0x80 0x6B 0x80 0xA0
0x80 0x62 0x80 0xA0 0x03 0x02 0x01 0x20 0xA1 0x03 0x02 0x01 0xFF followed
by exactly eight 0x00 terminator bytes. -/
theorem claim3_amended :
    asn1.WriteRootTreeRequest [] =
      [0x60, 0x80, 0x6B, 0x80, 0xA0, 0x80, 0x62, 0x80, 0xA0, 0x03, 0x02,
       0x01, 0x20, 0xA1, 0x03, 0x02, 0x01, 0xFF] ++ List.replicate 8 0 := by
  decide

/-- Claim C4: for every payload, `Encode` with packet type first-multi
produces exactly the two frames `createS101 message first-multi` followed by
`createS101 [] last-multi`; with any other packet type it produces exactly
the one frame `createS101 message packetType`; and the packet type byte of a
frame sits at index 5. -/
theorem claim4 (message : List Nat) (packetType : Nat) :
    s101.Encode message s101.FirstMultiPacket =
      s101.createS101 message s101.FirstMultiPacket
        ++ s101.createS101 [] s101.LastMultiPacket ∧
    (packetType ≠ s101.FirstMultiPacket →
      s101.Encode message packetType = s101.createS101 message packetType) ∧
    (s101.createS101 message packetType).getD 5 0 = packetType := by
  refine ⟨by simp [s101.Encode], fun h => by simp [s101.Encode, h], ?_⟩
  simp [s101.createS101, s101.s101Info]

/-- Claim C4, witness: `Encode` at the single packet type yields the one
frame. -/
theorem claim4_witness :
    s101.SingleMessage ≠ s101.FirstMultiPacket ∧
    s101.Encode [1, 2] s101.SingleMessage =
      s101.createS101 [1, 2] s101.SingleMessage :=
  ⟨by decide, (claim4 [1, 2] s101.SingleMessage).2.1 (by decide)⟩

/-- Claim C10: `WriteUniversal` always succeeds and emits the universal
object tag, the path length reduced modulo 256, then every path component
reduced modulo 256 (the Go uint8 cast). -/
theorem claim10 (s : List Nat) (path : List Int) :
    asn1.WriteUniversal s path =
      s ++ asn1.UniversalObjectTag :: (path.length % 256)
        :: path.map (fun p => (p.emod 256).toNat) :=
  WriteUniversal_eq s path

/-- Claim C6: a parameter element whose value was never set (no context tag
2 content field was decoded, which is the only place a value is assigned)
is defaulted by `setDefaultElementValue` to integer zero for value types 1
and 2, the empty string for value type 3 and false for value type 4, while
value type 6 (enum) assigns no default and leaves the element unchanged. -/
theorem claim6 (el : ember.Element) (hv : el.value = none) :
    ((el.valueType = 1 ∨ el.valueType = 2) →
      (ember.setDefaultElementValue el).value = some (.int 0)) ∧
    (el.valueType = 3 →
      (ember.setDefaultElementValue el).value = some (.str "")) ∧
    (el.valueType = 4 →
      (ember.setDefaultElementValue el).value = some (.bool false)) ∧
    (el.valueType = 6 →
      (ember.setDefaultElementValue el).value = none ∧
        ember.setDefaultElementValue el = el) := by
  obtain ⟨f, c⟩ := el
  simp only [ember.Element.value, ember.Element.valueType,
    ember.Element.fields] at hv ⊢
  refine ⟨fun h1 => ?_, fun h3 => ?_, fun h4 => ?_, fun h6 => ?_⟩ <;>
    simp_all [ember.setDefaultElementValue, ember.Element.value,
      ember.Element.fields, ember.valueTypeInt, ember.valueTypeReal,
      ember.valueTypeString, ember.valueTypeBool]

/-- Claim C6, witness: a fresh parameter element with value type 3 and no
value gets the empty string. -/
theorem claim6_witness :
    (ember.setDefaultElementValue
      (ember.Element.mk { valueType := 3 } [])).value = some (.str "") :=
  (claim6 (ember.Element.mk { valueType := 3 } []) rfl).2.1 rfl

/-- Claim C7, counterexample: `DecodeInteger` on the BER encoding 0x02 0x01
0xFF returns 255, not the twos-complement value -1. -/
theorem claim7_counterexample :
    asn1.DecodeInteger [0x02, 0x01, 0xFF] = .ok (255, []) ∧
    (255 : Int) ≠ -1 := by
  decide

/-- Wraparound is the identity on values inside the 64-bit signed range. -/
theorem wrap64_eq_self (x : Int) (h0 : -2 ^ 63 ≤ x) (h1 : x < 2 ^ 63) :
    asn1.wrap64 x = x := by
  unfold asn1.wrap64
  rw [Int.emod_eq_of_lt (by omega) (by omega)]
  omega

/-- The content loop of `DecodeInteger` computes the big-endian unsigned
value of valid bytes as long as no 64-bit overflow can occur. -/
theorem decodeIntegerLoop_ok (cs : List Nat) : ∀ acc : Int,
    (∀ b ∈ cs, b < 256) → 0 ≤ acc →
    (acc + 1) * 256 ^ cs.length ≤ 2 ^ 63 →
    asn1.decodeIntegerLoop cs.length acc cs =
      .ok (cs.foldl (fun a b => a * 256 + (b : Int)) acc, []) ∧
    0 ≤ cs.foldl (fun a b => a * 256 + (b : Int)) acc := by
  induction cs with
  | nil =>
    intro acc _ hnn _
    exact ⟨rfl, hnn⟩
  | cons b rest ih =>
    intro acc hb hnn hbound
    have hblt : (b : Int) < 256 := by
      exact_mod_cast hb b (List.mem_cons_self b rest)
    have hbnn : (0 : Int) ≤ (b : Int) := Int.natCast_nonneg b
    have hstep : acc * 256 + (b : Int) + 1 ≤ (acc + 1) * 256 := by nlinarith
    have hpow : (1 : Int) ≤ 256 ^ rest.length := one_le_pow₀ (by norm_num)
    have hnext : (acc * 256 + (b : Int) + 1) * 256 ^ rest.length ≤ 2 ^ 63 := by
      calc (acc * 256 + (b : Int) + 1) * 256 ^ rest.length
          ≤ ((acc + 1) * 256) * 256 ^ rest.length := by
            apply mul_le_mul_of_nonneg_right hstep (by positivity)
        _ = (acc + 1) * 256 ^ (b :: rest).length := by
            simp [List.length_cons, pow_succ]; ring
        _ ≤ 2 ^ 63 := hbound
    have hin : acc * 256 + (b : Int) < 2 ^ 63 := by nlinarith
    have hnn2 : (0 : Int) ≤ acc * 256 + (b : Int) := by positivity
    have hwrap : asn1.wrap64 (acc * 256 + (b : Int)) = acc * 256 + (b : Int) :=
      wrap64_eq_self _ (by omega) hin
    have := ih (acc * 256 + (b : Int)) (fun x hx => hb x (List.mem_cons_of_mem b hx))
      hnn2 hnext
    simpa [asn1.decodeIntegerLoop, hwrap] using this

/-- Claim C7, amended: `DecodeInteger` decodes BER integer contents as
big-endian unsigned, not twos-complement: for contents of up to seven valid
bytes the result is the non-negative big-endian value of the bytes, also
when the first content byte has its high bit set. -/
theorem claim7_amended (cs : List Nat) (hlen : cs.length ≤ 7)
    (hbytes : ∀ b ∈ cs, b < 256) :
    asn1.DecodeInteger (asn1.emberIntTag :: cs.length :: cs) =
      .ok (cs.foldl (fun acc b => acc * 256 + (b : Int)) 0, []) ∧
    0 ≤ cs.foldl (fun acc b => acc * 256 + (b : Int)) 0 := by
  have hand : cs.length &&& 128 = 0 := by
    have h7 : cs.length < 2 ^ 7 := by omega
    have h := Nat.and_two_pow cs.length 7
    rw [Nat.testBit_eq_false_of_lt h7] at h
    norm_num at h
    exact h
  have hc : asn1.contextByte = 128 := rfl
  have hread : asn1.readLength (cs.length :: cs) = .ok (cs.length, 1, cs) := by
    simp [asn1.readLength, hc, hand]
  have hloop := decodeIntegerLoop_ok cs 0 hbytes le_rfl (by
    have : (256 : Int) ^ cs.length ≤ 256 ^ 7 :=
      pow_le_pow_right₀ (by norm_num) hlen
    calc (0 + 1) * (256 : Int) ^ cs.length = 256 ^ cs.length := by ring
      _ ≤ 256 ^ 7 := this
      _ ≤ 2 ^ 63 := by norm_num)
  refine ⟨?_, hloop.2⟩
  simp [asn1.DecodeInteger, hread, hloop.1]

/-- Claim C7, witness: the amended statement at the single content byte
0xFF. -/
theorem claim7_witness :
    asn1.DecodeInteger [asn1.emberIntTag, 1, 0xFF] = .ok (255, []) ∧
    (0 : Int) ≤ 255 := by
  have h := claim7_amended [0xFF] (by decide) (by decide)
  exact ⟨h.1, by decide⟩

/-- Claim C9: every encoder write operation only appends to the buffer: for
every buffer content B, with or without an error result, the new buffer
returned by `GetData` starts with B unchanged. -/
theorem claim9 (B : List Nat) (path : List Int) (tag : String)
    (cmd i : Int) (cont : Nat) :
    (∃ t, asn1.GetData (asn1.WriteRequest B path tag cmd).1 = B ++ t) ∧
    (∃ t, asn1.GetData (asn1.WriteRootTreeRequest B) = B ++ t) ∧
    (∃ t, asn1.GetData (asn1.WriteCommand B cmd) = B ++ t) ∧
    (∃ t, asn1.GetData (asn1.WriteUniversal B path) = B ++ t) ∧
    (∃ t, asn1.GetData (asn1.writeInt B i cont) = B ++ t) := by
  refine ⟨WriteRequest_append B path tag cmd, WriteRootTreeRequest_append B,
    WriteCommand_append B cmd, ⟨_, WriteUniversal_eq B path⟩,
    ⟨_, writeInt_eq B i cont⟩⟩

section EscapeLemmas

open s101

/-- Escaping a byte at or above the threshold yields an escaped byte below
the threshold. -/
theorem xorce_escaped_lt (b : Nat) (h1 : bofne ≤ b) (h2 : b < 256) :
    xorce ^^^ b < bofne := by
  have h1 : 248 ≤ b := h1
  interval_cases b <;> decide

/-- Every byte at or above 0xF8 in the escaped output is the escape marker
0xFD, and the byte right after it is below 0xF8. -/
theorem escape_pos (P : List Nat) (hP : ∀ b ∈ P, b < 256) : ∀ i,
    bofne ≤ (escapeBytesAboveBOFNE P).getD i 0 →
      (escapeBytesAboveBOFNE P).getD i 0 = ce ∧
      (escapeBytesAboveBOFNE P).getD (i + 1) 0 < bofne := by
  induction P with
  | nil =>
    intro i hi
    simp only [escapeBytesAboveBOFNE, List.getD] at hi
    simp [bofne] at hi
  | cons b rest ih =>
    have hb : b < 256 := hP b (List.mem_cons_self b rest)
    have hrest : ∀ x ∈ rest, x < 256 := fun x hx => hP x (List.mem_cons_of_mem b hx)
    intro i hi
    by_cases hesc : bofne ≤ b
    · have hx : xorce ^^^ b < bofne := xorce_escaped_lt b hesc hb
      simp only [escapeBytesAboveBOFNE, if_pos hesc] at hi ⊢
      match i with
      | 0 =>
        refine ⟨rfl, ?_⟩
        simpa using hx
      | 1 =>
        simp only [List.getD_cons_succ, List.getD_cons_zero] at hi
        omega
      | n + 2 =>
        simpa using ih hrest n (by simpa using hi)
    · have hblt : b < bofne := by omega
      simp only [escapeBytesAboveBOFNE, if_neg hesc] at hi ⊢
      match i with
      | 0 =>
        simp only [List.getD_cons_zero] at hi
        omega
      | n + 1 =>
        simpa using ih hrest n (by simpa using hi)

/-- De-escaping inverts escaping exactly. -/
theorem deEscape_escape (P : List Nat) :
    deEscape false (escapeBytesAboveBOFNE P) = P := by
  induction P with
  | nil => rfl
  | cons b rest ih =>
    by_cases hesc : bofne ≤ b
    · have hxne : xorce ^^^ b ≠ ce := by
        intro h
        have hb2 : b = xorce ^^^ ce := by
          have h2 := congrArg (fun x => xorce ^^^ x) h
          simpa [← Nat.xor_assoc, Nat.xor_self] using h2
        have h248 : 248 ≤ b := hesc
        rw [hb2] at h248
        exact absurd h248 (by decide)
      have hce : ce = ce := rfl
      simp only [escapeBytesAboveBOFNE, if_pos hesc, deEscape, if_pos hce,
        if_neg hxne]
      rw [← Nat.xor_assoc]
      simpa using ih
    · have hbne : b ≠ ce := by
        have h248 : ¬ 248 ≤ b := hesc
        have : ce = 253 := rfl
        omega
      simp only [escapeBytesAboveBOFNE, if_neg hesc, deEscape, if_neg hbne, ih]
      rfl

end EscapeLemmas

/-- Claim C5, counterexample: escaping the payload 0xFF produces 0xFD 0xDF,
whose byte 0xFD lies in the range 0xF8 to 0xFF but does not appear
immediately after a 0xFD escape marker, so the claimed condition fails. -/
theorem claim5_counterexample :
    s101.escapeBytesAboveBOFNE [0xFF] = [s101.ce, 0xDF] ∧
    ¬ ∀ i < (s101.escapeBytesAboveBOFNE [0xFF]).length,
        s101.bofne ≤ (s101.escapeBytesAboveBOFNE [0xFF]).getD i 0 →
          1 ≤ i ∧ (s101.escapeBytesAboveBOFNE [0xFF]).getD (i - 1) 0 = s101.ce := by
  decide

/-- Claim C5, amended: for every payload of valid bytes,
escape(unescape(escape P)) equals escape P, and every byte in the range
0xF8 to 0xFF appearing in the escaped output is itself a 0xFD escape
marker whose immediately following byte is below 0xF8; in particular no
byte at or above 0xF8 ever appears immediately after a 0xFD marker. -/
theorem claim5_amended (P : List Nat) (hP : ∀ b ∈ P, b < 256) :
    s101.escapeBytesAboveBOFNE
        (s101.deEscape false (s101.escapeBytesAboveBOFNE P)) =
      s101.escapeBytesAboveBOFNE P ∧
    ∀ i, s101.bofne ≤ (s101.escapeBytesAboveBOFNE P).getD i 0 →
      (s101.escapeBytesAboveBOFNE P).getD i 0 = s101.ce ∧
      (s101.escapeBytesAboveBOFNE P).getD (i + 1) 0 < s101.bofne :=
  ⟨by rw [deEscape_escape], escape_pos P hP⟩

/-- Claim C5, witness: the amended statement at the payload 0xF9 0x01. -/
theorem claim5_witness :
    s101.escapeBytesAboveBOFNE
        (s101.deEscape false (s101.escapeBytesAboveBOFNE [0xF9, 0x01])) =
      s101.escapeBytesAboveBOFNE [0xF9, 0x01] ∧
    (s101.escapeBytesAboveBOFNE [0xF9, 0x01]).getD 0 0 = s101.ce ∧
    (s101.escapeBytesAboveBOFNE [0xF9, 0x01]).getD 1 0 < s101.bofne := by
  have h := claim5_amended [0xF9, 0x01] (by decide)
  exact ⟨h.1, h.2 0 (by decide)⟩

/-- Claim C8, counterexample: although the collection holds a top-level
element whose key path is exactly "1.2", `GetElementByPath` returns the
child of the earlier-iterated element instead, so the claimed priority of
exact top-level matches fails. -/
theorem claim8_counterexample :
    ember.GetElementByPath collAmbiguous "1.2" = .ok childC ∧
    childC.identifier = "C" ∧ elemA.identifier = "A" ∧
    ("C" : String) ≠ "A" ∧
    ((⟨"A", "1.2"⟩ : ember.ElementKey), elemA) ∈ collAmbiguous ∧
    (⟨"A", "1.2"⟩ : ember.ElementKey).path = "1.2" := by
  refine ⟨rfl, rfl, rfl, by decide, by simp [collAmbiguous], rfl⟩

/-- A successful child scan returns a member child whose joined path is the
query. -/
theorem childByPath_some {kp s : String} {l : List ember.Element}
    {ch : ember.Element} (h : ember.childByPath kp s l = some ch) :
    ch ∈ l ∧ kp ++ "." ++ ch.path = s := by
  induction l with
  | nil => simp [ember.childByPath] at h
  | cons c rest ih =>
    by_cases hc : kp ++ "." ++ c.path = s
    · simp only [ember.childByPath, if_pos hc, Option.some.injEq] at h
      subst h
      exact ⟨List.mem_cons_self c rest, hc⟩
    · simp only [ember.childByPath, if_neg hc] at h
      obtain ⟨hm, he⟩ := ih h
      exact ⟨List.mem_cons_of_mem c hm, he⟩

/-- When no child joins to the query the child scan fails. -/
theorem childByPath_none {kp s : String} {l : List ember.Element}
    (h : ∀ ch ∈ l, kp ++ "." ++ ch.path ≠ s) :
    ember.childByPath kp s l = none := by
  induction l with
  | nil => rfl
  | cons c rest ih =>
    have hc := h c (List.mem_cons_self c rest)
    simp only [ember.childByPath, if_neg hc]
    exact ih fun ch hch => h ch (List.mem_cons_of_mem c hch)

/-- Claim C8, amended: `GetElementByPath` scans the collection in iteration
order and returns either an element whose own key path equals the query or
an immediate child whose joined parent.child path equals the query,
whichever it meets first; when neither kind of match exists, in particular
for elements reachable only more than one level below the root, it fails
with the element not found error. -/
theorem claim8_amended (coll : List (ember.ElementKey × ember.Element))
    (s : String) :
    ((∀ ke ∈ coll, ke.1.path ≠ s ∧
        ∀ ch ∈ ke.2.children, ke.1.path ++ "." ++ ch.path ≠ s) →
      ember.GetElementByPath coll s = .error "element not found") ∧
    (∀ e, ember.GetElementByPath coll s = .ok e →
      ∃ ke ∈ coll, (ke.1.path = s ∧ e = ke.2) ∨
        (e ∈ ke.2.children ∧ ke.1.path ++ "." ++ e.path = s)) := by
  induction coll with
  | nil =>
    refine ⟨fun _ => rfl, fun e he => ?_⟩
    simp [ember.GetElementByPath] at he
  | cons kel rest ih =>
    obtain ⟨k, el⟩ := kel
    constructor
    · intro h
      obtain ⟨hk, hch⟩ := h (k, el) (List.mem_cons_self (k, el) rest)
      have hnone : ember.childByPath k.path s el.children = none :=
        childByPath_none hch
      simp only [ember.GetElementByPath, if_neg hk, hnone]
      exact ih.1 fun ke hke => h ke (List.mem_cons_of_mem (k, el) hke)
    · intro e he
      by_cases hk : k.path = s
      · simp only [ember.GetElementByPath, if_pos hk, Except.ok.injEq] at he
        exact ⟨(k, el), List.mem_cons_self (k, el) rest, Or.inl ⟨hk, he.symm⟩⟩
      · simp only [ember.GetElementByPath, if_neg hk] at he
        cases hcb : ember.childByPath k.path s el.children with
        | some ch =>
          rw [hcb] at he
          simp only [Except.ok.injEq] at he
          subst he
          obtain ⟨hm, hj⟩ := childByPath_some hcb
          exact ⟨(k, el), List.mem_cons_self (k, el) rest, Or.inr ⟨hm, hj⟩⟩
        | none =>
          rw [hcb] at he
          obtain ⟨ke, hke, hor⟩ := ih.2 e he
          exact ⟨ke, List.mem_cons_of_mem (k, el) hke, hor⟩

/-- Claim C8, witness: the amended statement applied to a collection whose
only match for the query sits two levels below the root fails with the
element not found error. -/
theorem claim8_witness :
    ember.GetElementByPath collDeep "1.2.3" = .error "element not found" :=
  (claim8_amended collDeep "1.2.3").1 (by decide)

section S101RoundTrip

open s101

/-- Escaping is the identity on payloads without high bytes. -/
theorem escape_eq_self (P : List Nat) (h : ∀ b ∈ P, b < bofne) :
    escapeBytesAboveBOFNE P = P := by
  induction P with
  | nil => rfl
  | cons b rest ih =>
    have hb : b < bofne := h b (List.mem_cons_self b rest)
    simp only [escapeBytesAboveBOFNE, if_neg (by omega : ¬ bofne ≤ b)]
    rw [ih fun x hx => h x (List.mem_cons_of_mem b hx)]

/-- De-escaping is the identity on byte lists without the escape marker. -/
theorem deEscape_no_ce (l : List Nat) (h : ∀ b ∈ l, b ≠ ce) :
    deEscape false l = l := by
  induction l with
  | nil => rfl
  | cons b rest ih =>
    have hb := h b (List.mem_cons_self b rest)
    simp only [deEscape, if_neg hb,
      ih fun x hx => h x (List.mem_cons_of_mem b hx)]
    rfl

/-- A trailing lone escape marker is dropped by de-escaping. -/
theorem deEscape_no_ce_append (l : List Nat) (h : ∀ b ∈ l, b ≠ ce) :
    deEscape false (l ++ [ce]) = l := by
  induction l with
  | nil => rfl
  | cons b rest ih =>
    have hb := h b (List.mem_cons_self b rest)
    have ih2 := ih fun x hx => h x (List.mem_cons_of_mem b hx)
    simp only [List.cons_append, deEscape, if_neg hb, List.append_eq, ih2]
    rfl

/-- Scanning inside a frame whose body holds no frame markers runs to the
closing end-of-frame byte and stores the frame. -/
theorem getS101sLoop_scan (body : List Nat) : ∀ (rest single : List Nat)
    (ef : Bool) (out : List (List Nat)),
    (∀ b ∈ body, b ≠ bof ∧ b ≠ eof) →
    getS101sLoop (body ++ eof :: rest) true ef out single =
      getS101sLoop rest false true (out ++ [single ++ body ++ [eof]]) [] := by
  induction body with
  | nil =>
    intro rest single ef out _
    have h1 : eof ≠ bof := by decide
    simp [getS101sLoop, if_neg h1]
  | cons b body2 ih =>
    intro rest single ef out h
    obtain ⟨hb1, hb2⟩ := h b (List.mem_cons_self b body2)
    have ih2 := ih rest (single ++ [b]) ef out
      (fun x hx => h x (List.mem_cons_of_mem b hx))
    have hstep : getS101sLoop ((b :: body2) ++ eof :: rest) true ef out single
        = getS101sLoop (body2 ++ eof :: rest) true ef out (single ++ [b]) := by
      simp [getS101sLoop, hb1, hb2]
    rw [hstep, ih2]
    simp [List.append_assoc]

/-- Splitting a single well-formed frame returns exactly that frame and no
trailing bytes. -/
theorem getS101s_one_frame (body : List Nat)
    (h : ∀ b ∈ body, b ≠ bof ∧ b ≠ eof) :
    getS101s (bof :: body ++ [eof]) = ([bof :: body ++ [eof]], []) := by
  unfold getS101s
  have h1 : getS101sLoop (bof :: body ++ [eof]) false false [] [] =
      getS101sLoop (body ++ eof :: []) true false [] [bof] := by
    simp [getS101sLoop]
  rw [h1, getS101sLoop_scan body [] [bof] false [] h]
  simp [getS101sLoop]

/-- The nine header bytes of a single-packet frame are no frame markers and
no escape markers. -/
theorem s101Info_single_mem :
    ∀ b ∈ s101Info SingleMessage, b ≠ bof ∧ b ≠ eof ∧ b ≠ ce := by
  decide

/-- The escaped CRC bytes of a frame whose CRC high byte is below the
escape threshold contain no frame markers. -/
theorem parseCRC_mem_two (lo hi : Nat) (hlo : lo < 256) (hhi : hi < bofne) :
    ∀ b ∈ parseCRC [lo, hi], b ≠ bof ∧ b ≠ eof := by
  have hb248 : hi < 248 := hhi
  have hbof : bof = 254 := rfl
  have heof : eof = 255 := rfl
  have hce : ce = 253 := rfl
  by_cases h : lo < bofne
  · have hl248 : lo < 248 := h
    intro b hb
    simp only [parseCRC, if_pos h, if_pos hhi, List.mem_cons,
      List.not_mem_nil, or_false] at hb
    rcases hb with rfl | rfl
    · exact ⟨by omega, by omega⟩
    · exact ⟨by omega, by omega⟩
  · have hl248 : 248 ≤ lo := by
      simp only [bofne] at h
      omega
    have hx : lo ^^^ xorce < 248 := by
      interval_cases lo <;> decide
    intro b hb
    simp only [parseCRC, if_neg h, if_pos hhi, List.mem_cons,
      List.not_mem_nil, or_false] at hb
    rcases hb with rfl | rfl | rfl
    · exact ⟨by omega, by omega⟩
    · exact ⟨by omega, by omega⟩
    · exact ⟨by omega, by omega⟩

/-- Decoding a list holding one long-enough frame strips the three tail
bytes, de-escapes, drops the ten prefix bytes, and reports the packet type
byte at index 5. -/
theorem Decode_one (frame P2 : List Nat) (pt : Nat)
    (hlen : 13 ≤ frame.length)
    (hglow : (deEscape false
        (frame.take (frame.length - s101LenAfterGlow))).drop s101LenTilGlow
      = P2)
    (hgd : frame.getD 5 0 = pt) :
    Decode [frame] = .ok (P2, pt) := by
  have hc : s101LenTilGlow + s101LenAfterGlow = 13 := rfl
  simp only [Decode, DecodeLoop, hc, if_neg (by omega : ¬ frame.length < 13)]
  simp [hglow, List.getD]
  rw [← hgd, List.getD_eq_getElem?_getD]

/-- Core of the amended round-trip claim: with valid low CRC byte and an
unescaped high CRC byte, decode of split of encode is the identity. -/
theorem c1_main (P : List Nat) (hP : ∀ b ∈ P, b < bofne)
    (hlo : getCRCValue (s101Info SingleMessage ++ P) &&& eof < 256)
    (hhi : getCRCValue (s101Info SingleMessage ++ P) >>>
      checkSumSecondDeviation < bofne) :
    Decode (getS101s (Encode P SingleMessage)).1 = .ok (P, SingleMessage) := by
  have hne : SingleMessage ≠ FirstMultiPacket := by decide
  have hesc : escapeBytesAboveBOFNE P = P := escape_eq_self P hP
  have hframe : Encode P SingleMessage =
      bof :: (s101Info SingleMessage ++ P ++
        parseCRC [getCRCValue (s101Info SingleMessage ++ P) &&& eof,
          getCRCValue (s101Info SingleMessage ++ P) >>>
            checkSumSecondDeviation]) ++ [eof] := by
    simp only [Encode, if_neg hne, createS101, hesc, getCRC]
    simp [List.append_assoc]
  have hmemP : ∀ b ∈ P, b ≠ bof ∧ b ≠ eof ∧ b ≠ ce := by
    intro b hb
    have h1 : b < 248 := hP b hb
    exact ⟨by simp only [bof]; omega, by simp only [eof]; omega,
      by simp only [ce]; omega⟩
  have hmem : ∀ b ∈ s101Info SingleMessage ++ P ++
      parseCRC [getCRCValue (s101Info SingleMessage ++ P) &&& eof,
        getCRCValue (s101Info SingleMessage ++ P) >>> checkSumSecondDeviation],
      b ≠ bof ∧ b ≠ eof := by
    intro b hb
    simp only [List.append_assoc, List.mem_append] at hb
    rcases hb with h | h | h
    · exact ⟨(s101Info_single_mem b h).1, (s101Info_single_mem b h).2.1⟩
    · exact ⟨(hmemP b h).1, (hmemP b h).2.1⟩
    · exact parseCRC_mem_two _ _ hlo hhi b h
  have hmemPre : ∀ b ∈ bof :: (s101Info SingleMessage ++ P), b ≠ ce := by
    intro b hb
    simp only [List.mem_cons] at hb
    rcases hb with rfl | hb
    · decide
    · rcases List.mem_append.mp hb with h | h
      · exact (s101Info_single_mem b h).2.2
      · exact (hmemP b h).2.2
  have hpre10 : (10 : Nat) = (bof :: s101Info SingleMessage).length := rfl
  have hdropPre : (bof :: (s101Info SingleMessage ++ P)).drop 10 = P := by
    rw [show bof :: (s101Info SingleMessage ++ P) =
      (bof :: s101Info SingleMessage) ++ P from rfl, hpre10, List.drop_left]
  rw [hframe, getS101s_one_frame _ hmem]
  by_cases hlt : getCRCValue (s101Info SingleMessage ++ P) &&& eof < bofne
  · have hcp : parseCRC [getCRCValue (s101Info SingleMessage ++ P) &&& eof,
        getCRCValue (s101Info SingleMessage ++ P) >>> checkSumSecondDeviation] =
        [getCRCValue (s101Info SingleMessage ++ P) &&& eof,
         getCRCValue (s101Info SingleMessage ++ P) >>> checkSumSecondDeviation] := by
      simp [parseCRC, hlt, hhi]
    rw [hcp]
    have hshape : bof :: (s101Info SingleMessage ++ P ++
        [getCRCValue (s101Info SingleMessage ++ P) &&& eof,
         getCRCValue (s101Info SingleMessage ++ P) >>> checkSumSecondDeviation])
        ++ [eof] =
        (bof :: (s101Info SingleMessage ++ P)) ++
        [getCRCValue (s101Info SingleMessage ++ P) &&& eof,
         getCRCValue (s101Info SingleMessage ++ P) >>> checkSumSecondDeviation,
         eof] := by
      simp [List.append_assoc]
    rw [hshape]
    have hplen : ((bof :: (s101Info SingleMessage ++ P)) ++
        [getCRCValue (s101Info SingleMessage ++ P) &&& eof,
         getCRCValue (s101Info SingleMessage ++ P) >>> checkSumSecondDeviation,
         eof]).length = (10 + P.length) + 3 := by
      simp [s101Info]
      omega
    apply Decode_one
    · rw [hplen]; omega
    · have hsub : ((bof :: (s101Info SingleMessage ++ P)) ++
          [getCRCValue (s101Info SingleMessage ++ P) &&& eof,
           getCRCValue (s101Info SingleMessage ++ P) >>> checkSumSecondDeviation,
           eof]).length - s101LenAfterGlow =
          (bof :: (s101Info SingleMessage ++ P)).length := by
        rw [hplen]
        simp [s101Info, s101LenAfterGlow]
        omega
      rw [hsub, List.take_left, deEscape_no_ce _ hmemPre]
      exact hdropPre
    · simp [s101Info, List.getD_cons_succ, List.getD_cons_zero]
  · have hcp : parseCRC [getCRCValue (s101Info SingleMessage ++ P) &&& eof,
        getCRCValue (s101Info SingleMessage ++ P) >>> checkSumSecondDeviation] =
        [ce, (getCRCValue (s101Info SingleMessage ++ P) &&& eof) ^^^ xorce,
         getCRCValue (s101Info SingleMessage ++ P) >>> checkSumSecondDeviation] := by
      simp [parseCRC, hlt, hhi]
    rw [hcp]
    have hshape : bof :: (s101Info SingleMessage ++ P ++
        [ce, (getCRCValue (s101Info SingleMessage ++ P) &&& eof) ^^^ xorce,
         getCRCValue (s101Info SingleMessage ++ P) >>> checkSumSecondDeviation])
        ++ [eof] =
        (bof :: (s101Info SingleMessage ++ P)) ++
        [ce, (getCRCValue (s101Info SingleMessage ++ P) &&& eof) ^^^ xorce,
         getCRCValue (s101Info SingleMessage ++ P) >>> checkSumSecondDeviation,
         eof] := by
      simp [List.append_assoc]
    rw [hshape]
    have hplen : ((bof :: (s101Info SingleMessage ++ P)) ++
        [ce, (getCRCValue (s101Info SingleMessage ++ P) &&& eof) ^^^ xorce,
         getCRCValue (s101Info SingleMessage ++ P) >>> checkSumSecondDeviation,
         eof]).length = (10 + P.length) + 4 := by
      simp [s101Info]
      omega
    apply Decode_one
    · rw [hplen]; omega
    · have hsub : ((bof :: (s101Info SingleMessage ++ P)) ++
          [ce, (getCRCValue (s101Info SingleMessage ++ P) &&& eof) ^^^ xorce,
           getCRCValue (s101Info SingleMessage ++ P) >>> checkSumSecondDeviation,
           eof]).length - s101LenAfterGlow =
          (bof :: (s101Info SingleMessage ++ P)).length + 1 := by
        rw [hplen]
        simp [s101Info, s101LenAfterGlow]
        omega
      rw [hsub, List.take_append 1]
      simp only [List.take_succ_cons, List.take_zero]
      rw [deEscape_no_ce_append _ hmemPre]
      exact hdropPre
    · simp [s101Info, List.getD_cons_succ, List.getD_cons_zero]

end S101RoundTrip

/-- Claim C1, counterexample: the payload 0x01 satisfies every hypothesis of
the claim (no byte at or above 0xF8, length at most 1275), yet decoding the
split single-packet encoding yields the payload 0x01 0x52 with a stray CRC
byte appended, because the frame's CRC high byte 0xFF gets escaped and the
decoder strips only a fixed-length tail. -/
theorem claim1_counterexample :
    (∀ b ∈ [0x01], b < s101.bofne) ∧ ([0x01] : List Nat).length ≤ 1275 ∧
    s101.Decode (s101.getS101s (s101.Encode [0x01] s101.SingleMessage)).1 =
      .ok ([0x01, 0x52], s101.SingleMessage) ∧
    (Except.ok ([0x01, 0x52], s101.SingleMessage) :
        Except String (List Nat × Nat)) ≠ .ok ([0x01], s101.SingleMessage) := by
  refine ⟨by decide, by decide, by decide, by decide⟩

/-- Claim C1, amended: for every payload P of length at most 1275 containing
no byte at or above 0xF8 and whose frame CRC has a high byte below 0xF8
(so that the escaped CRC keeps the two-byte width the decoder strips),
decoding the frames obtained by splitting the single-packet encoding of P
returns exactly P and reports the single packet type. -/
theorem claim1_amended (P : List Nat) (hP : ∀ b ∈ P, b < s101.bofne)
    (_hlen : P.length ≤ 1275)
    (hcrc : s101.getCRCValue (s101.s101Info s101.SingleMessage ++ P) >>>
      s101.checkSumSecondDeviation < s101.bofne) :
    s101.Decode (s101.getS101s (s101.Encode P s101.SingleMessage)).1 =
      .ok (P, s101.SingleMessage) := by
  have hv : s101.getCRCValue (s101.s101Info s101.SingleMessage ++ P) &&&
      s101.eof < 256 := Nat.lt_succ_of_le (Nat.and_le_right)
  exact c1_main P hP hv hcrc

/-- Claim C1, witness: the amended statement at the empty payload, whose
frame CRC is 0x52FE with low byte escaped and high byte 0x52 below the
threshold. -/
theorem claim1_witness :
    (∀ b ∈ ([] : List Nat), b < s101.bofne) ∧
    ([] : List Nat).length ≤ 1275 ∧
    s101.getCRCValue (s101.s101Info s101.SingleMessage ++ []) >>>
      s101.checkSumSecondDeviation < s101.bofne ∧
    s101.Decode (s101.getS101s (s101.Encode [] s101.SingleMessage)).1 =
      .ok ([], s101.SingleMessage) :=
  ⟨by decide, by decide, by decide,
    claim1_amended [] (by decide) (by decide) (by decide)⟩

/-- Claim C2: the stream 0xFE 0xFF 0xFE 0x01 contains one complete frame
followed by an unterminated frame, yet `getS101s` returns empty trailing
bytes, dropping the partial frame; fed only the unterminated part, the
same function does return the partial bytes as trailing. -/
theorem claim2_bug_evaluation :
    s101.getS101s [0xFE, 0xFF, 0xFE, 0x01] = ([[0xFE, 0xFF]], []) ∧
    s101.getS101s [0xFE, 0x01] = ([], [0xFE, 0x01]) ∧
    ([] : List Nat) ≠ [0xFE, 0x01] := by
  decide

end EmberPlus
